import Mathlib

/-!
Shallow embedding of `validate.py` (commit-msg.py repository).

Python strings are modelled as `List Char` (a Python `str` is a sequence of
Unicode code points).  Diagnostics that the Python code prints through
`print_error_msg` are collected in a list, in print order, together with the
context fields each call passes.  The `ValueError` that tuple unpacking can
raise in `validate_commit_message` is modelled with `Except`.

The regular expression `HEADER_PATTERN` is embedded as a hand-written
deterministic matcher `parseHeaderW`.  For this particular pattern the regex
backtracking never changes the outcome: the type token `\w+` is always
followed by a non-word character, so shortening it cannot help; skipping the
optional scope group after it matched cannot help because the following
literal is `: `; and skipping a present `fixup! `/`squash! ` marker always
fails at the `!` character.  (These arguments use only that the word class
contains none of `(`, `)`, `:`, `!`, the space and the newline, which holds
for the Unicode `\w` of the Python regex, whose word characters are the
alphanumerics and the underscore.)

The pattern is compiled without `re.ASCII`, so `\w` matches the full
Unicode table of alphanumerics plus the underscore.  That table is not
reproduced here; instead the matcher, `check_header` and the validator are
parametric in the word class `w`, and the theorems about grammar-matching
headers are proved for every `w` that matches no whitespace character — a
property the Unicode word class has, since no alphanumeric and no
underscore is whitespace.  Instantiating `w` at the true Unicode class
therefore specialises every such theorem to the behaviour of the program,
Unicode-typed headers included.  `isWordChar`, the ASCII restriction
`[A-Za-z0-9_]` of the class, is the executable instance used for concrete
evaluation and witnesses.  The whitespace class follows the character set
of Python `str.strip()` and `\s` exactly.
-/

namespace CommitMsg

/-- `LINE_LIMIT = 100` in validate.py. -/
def LINE_LIMIT : Nat := 100

/-- `BODY_REQUIRED = False` in validate.py. -/
def BODY_REQUIRED : Bool := false

/-- `TYPE_LIST` in validate.py. -/
def TYPE_LIST : List (List Char) :=
  ["feat".toList, "fix".toList, "docs".toList, "style".toList,
   "refactor".toList, "perf".toList, "test".toList, "chore".toList,
   "revert".toList, "Revert".toList]

/-- The `ErrorEnum` states of validate.py that the validation core can
produce, each with the context fields its `print_error_msg` call passes. -/
inductive Diag where
  | VALIDATED
  | MERGE
  | EMPTY_MESSAGE
  | EMPTY_HEADER
  | BAD_HEADER_FORMAT (header : List Char)
  | WRONG_TYPE (ty : List Char)
  | BODY_MISSING
  | NO_BLANK_LINE_BEFORE_BODY
  | LINE_OVERLONG (length : Nat) (line : List Char)
deriving DecidableEq

/-- The exception that can escape `validate_commit_message`: the
`ValueError` raised by unpacking `message.split` into two names. -/
inductive PyExc where
  | valueError
deriving DecidableEq

/-- Whitespace in the sense of Python `str.strip()` / `str.isspace()` and of
the regex class `\s`. -/
def isPySpace (c : Char) : Bool :=
  decide (c.toNat = 0x20 ∨ c.toNat = 0x9 ∨ c.toNat = 0xa ∨ c.toNat = 0xb ∨
    c.toNat = 0xc ∨ c.toNat = 0xd ∨ (0x1c ≤ c.toNat ∧ c.toNat ≤ 0x1f) ∨
    c.toNat = 0x85 ∨ c.toNat = 0xa0 ∨ c.toNat = 0x1680 ∨
    (0x2000 ≤ c.toNat ∧ c.toNat ≤ 0x200a) ∨ c.toNat = 0x2028 ∨
    c.toNat = 0x2029 ∨ c.toNat = 0x202f ∨ c.toNat = 0x205f ∨
    c.toNat = 0x3000)

/-- `not s.strip()` in Python: the string holds nothing but whitespace
(true in particular for the empty string). -/
def isBlank (s : List Char) : Bool := s.all isPySpace

/-- The ASCII restriction `[A-Za-z0-9_]` of the regex class `\w`: the
executable instance of the word-class parameter (see the module comment). -/
def isWordChar (c : Char) : Bool :=
  decide ((0x41 ≤ c.toNat ∧ c.toNat ≤ 0x5a) ∨ (0x61 ≤ c.toNat ∧ c.toNat ≤ 0x7a) ∨
    (0x30 ≤ c.toNat ∧ c.toNat ≤ 0x39) ∨ c.toNat = 0x5f)

/-- Characters allowed inside a scope: the regex class `[^\)\s]`. -/
def scopeChar (c : Char) : Bool := !(c == ')' || isPySpace c)

/-- Line boundaries of Python `str.splitlines()`. -/
def isLineBoundary (c : Char) : Bool :=
  decide (c.toNat = 0xa ∨ c.toNat = 0xd ∨ c.toNat = 0xb ∨ c.toNat = 0xc ∨
    c.toNat = 0x1c ∨ c.toNat = 0x1d ∨ c.toNat = 0x1e ∨ c.toNat = 0x85 ∨
    c.toNat = 0x2028 ∨ c.toNat = 0x2029)

/-- The literal `Merge ` of `MERGE_PATTERN`. -/
def MERGE_KEY : List Char := ['M', 'e', 'r', 'g', 'e', ' ']

/-- The literal `fixup! ` alternative of the optional marker group. -/
def FIXUP_KEY : List Char := ['f', 'i', 'x', 'u', 'p', '!', ' ']

/-- The literal `squash! ` alternative of the optional marker group. -/
def SQUASH_KEY : List Char := ['s', 'q', 'u', 'a', 's', 'h', '!', ' ']

/-- The capture groups of a successful `HEADER_PATTERN` match that
`check_header` uses: group 2 as a boolean, group 3, group 4, group 5. -/
structure HeaderMatch where
  fixupOrSquash : Bool
  type_ : List Char
  scope : Option (List Char)
  subject : List Char
deriving DecidableEq

/-- The optional scope part `(?:\(([^\)\s]+)\))?` of `HEADER_PATTERN`:
returns the captured scope (if the group matched) and the rest of the
input; on failure the group is skipped and the input is unchanged. -/
def parseScope (s : List Char) : Option (List Char) × List Char :=
  match s with
  | [] => (none, [])
  | c :: rest =>
    if c = '(' then
      let inner := rest.takeWhile scopeChar
      if inner.isEmpty then (none, c :: rest)
      else
        match rest.dropWhile scopeChar with
        | [] => (none, c :: rest)
        | d :: rest2 => if d = ')' then (some inner, rest2) else (none, c :: rest)
    else (none, c :: rest)

/-- `re.match(HEADER_PATTERN, header)` of validate.py, i.e. matching
`^((fixup! |squash! )?(\w+)(?:\(([^\)\s]+)\))?: (.+))(?:\n|$)` at the start
of the string, parametric in the word class `w` that interprets `\w` (see
the module comment); `.` does not match a newline, and the final `(?:\n|$)`
is always satisfied once `(.+)` has consumed greedily, so it adds
nothing. -/
def parseHeaderW (w : Char → Bool) (header : List Char) :
    Option HeaderMatch :=
  let fs : Bool × List Char :=
    if FIXUP_KEY.isPrefixOf header then (true, header.drop 7)
    else if SQUASH_KEY.isPrefixOf header then (true, header.drop 8)
    else (false, header)
  let ty := fs.2.takeWhile w
  if ty.isEmpty then none
  else
    let sc := parseScope (fs.2.dropWhile w)
    match sc.2 with
    | [] => none
    | [_] => none
    | a :: b :: rest3 =>
      if a = ':' ∧ b = ' ' then
        let subject := rest3.takeWhile (fun c => !(c == '\n'))
        if subject.isEmpty then none else some ⟨fs.1, ty, sc.1, subject⟩
      else none

/-- The header matcher at the ASCII word class: the executable instance. -/
def parseHeader (header : List Char) : Option HeaderMatch :=
  parseHeaderW isWordChar header

/-- `check_header` of validate.py, parametric in the word class of the
regex.  Returns the diagnostics it prints, in order, and its boolean
result. -/
def check_headerW (w : Char → Bool) (header : List Char) :
    List Diag × Bool :=
  if isBlank header then ([Diag.EMPTY_HEADER], false)
  else
    match parseHeaderW w header with
    | none => ([Diag.BAD_HEADER_FORMAT header], false)
    | some m =>
      let warns : List Diag :=
        if m.type_ ∈ TYPE_LIST then [] else [Diag.WRONG_TYPE m.type_]
      if header.length > LINE_LIMIT ∧
          ¬ (m.fixupOrSquash = true ∨ m.type_ = "revert".toList ∨
             m.type_ = "Revert".toList) then
        (warns ++ [Diag.LINE_OVERLONG header.length header], false)
      else (warns, true)

/-- `check_header` at the ASCII word class: the executable instance. -/
def check_header (header : List Char) : List Diag × Bool :=
  check_headerW isWordChar header

/-- `body.split(chr(10), maxsplit=1)[0]`: the text up to the first newline,
or the whole string when it has none. -/
def firstLine (s : List Char) : List Char := s.takeWhile (fun c => !(c == '\n'))

/-- Python `str.splitlines()`, accumulator form: the accumulator holds the
current line reversed; a trailing empty line is not emitted. -/
def splitlinesAux : List Char → List Char → List (List Char)
  | [], acc => if acc.isEmpty then [] else [acc.reverse]
  | c :: rest, acc =>
    if isLineBoundary c then
      match rest with
      | [] => [acc.reverse]
      | d :: rest2 =>
        if c = '\r' ∧ d = '\n' then acc.reverse :: splitlinesAux rest2 []
        else acc.reverse :: splitlinesAux (d :: rest2) []
    else splitlinesAux rest (c :: acc)

/-- Python `str.splitlines()`. -/
def splitlines (s : List Char) : List (List Char) := splitlinesAux s []

/-- The `for line in body.splitlines()` loop of `check_body`: fails on the
first line longer than `LINE_LIMIT`, looking at no later line. -/
def check_lines : List (List Char) → List Diag × Bool
  | [] => ([], true)
  | line :: rest =>
    if line.length > LINE_LIMIT then
      ([Diag.LINE_OVERLONG line.length line], false)
    else check_lines rest

/-- `check_body` of validate.py.  Returns the diagnostics it prints, in
order, and its boolean result. -/
def check_body (body : List Char) : List Diag × Bool :=
  if isBlank body then
    if BODY_REQUIRED then ([Diag.BODY_MISSING], false) else ([], true)
  else if firstLine body ≠ [] then ([Diag.NO_BLANK_LINE_BEFORE_BODY], false)
  else check_lines (splitlines body)

/-- `message.split(chr(10), maxsplit=1)` unpacked into two names: yields the
two pieces when the string has a newline, and is undefined (Python raises
`ValueError`) when it does not, because the split then has one element. -/
def splitOnce (s : List Char) : Option (List Char × List Char) :=
  if '\n' ∈ s then
    some (s.takeWhile (fun c => !(c == '\n')),
          (s.dropWhile (fun c => !(c == '\n'))).tail)
  else none

/-- `validate_commit_message` of validate.py, parametric in the word class
of the regex.  `Except.ok` carries the diagnostics printed during the call,
in order, and the returned boolean; `Except.error` is the `ValueError`
escaping from the tuple unpacking of the split when the message holds no
newline. -/
def validate_commit_messageW (w : Char → Bool) (message : List Char) :
    Except PyExc (List Diag × Bool) :=
  if isBlank message then Except.ok ([Diag.EMPTY_MESSAGE], false)
  else if MERGE_KEY.isPrefixOf message then Except.ok ([Diag.MERGE], true)
  else
    match splitOnce message with
    | none => Except.error PyExc.valueError
    | some (header, body) =>
      let r1 := check_headerW w header
      if r1.2 = false then Except.ok (r1.1, false)
      else
        let r2 := check_body body
        if r2.2 = false then Except.ok (r1.1 ++ r2.1, false)
        else Except.ok (r1.1 ++ r2.1 ++ [Diag.VALIDATED], true)

/-- The validator at the ASCII word class: the executable instance. -/
def validate_commit_message (message : List Char) :
    Except PyExc (List Diag × Bool) :=
  validate_commit_messageW isWordChar message

example :
    parseHeader ("feat(par): add arrays".toList) =
      some ⟨false, "feat".toList, some "par".toList, "add arrays".toList⟩ := by
  decide

example :
    parseHeader ("fixup! feat: x".toList) =
      some ⟨true, "feat".toList, none, "x".toList⟩ := by decide

example : parseHeader ("update stuff".toList) = none := by decide

example : parseHeader ("feat(): x".toList) = none := by decide

example : parseHeader ("feat: ".toList) = none := by decide

example :
    validate_commit_message ("feat(par): add arrays\n\nCloses #12".toList) =
      Except.ok ([Diag.VALIDATED], true) := rfl

example :
    validate_commit_message ("Merge branch main".toList) =
      Except.ok ([Diag.MERGE], true) := rfl

example :
    validate_commit_message ("update stuff".toList) =
      Except.error PyExc.valueError := rfl

example :
    validate_commit_message ("feat: short\nbody right away".toList) =
      Except.ok ([Diag.NO_BLANK_LINE_BEFORE_BODY], false) := rfl

example : splitlines "\nCloses #12".toList = [[], "Closes #12".toList] := by
  decide

example : splitlines "a\r\nb\r".toList = ["a".toList, "b".toList] := by decide

/-- A word character is never whitespace. -/
theorem word_not_space (c : Char) (h : isWordChar c = true) :
    isPySpace c = false := by
  simp only [isWordChar, decide_eq_true_eq] at h
  simp only [isPySpace, decide_eq_false_iff_not]
  omega

/-- A list whose `takeWhile` is nonempty starts with a character satisfying
the predicate. -/
theorem takeWhile_isEmpty_false {p : Char → Bool} {l : List Char}
    (h : (l.takeWhile p).isEmpty = false) :
    ∃ c t, l = c :: t ∧ p c = true := by
  cases l with
  | nil => simp [List.takeWhile] at h
  | cons c t =>
    cases hp : p c with
    | true => exact ⟨c, t, rfl, hp⟩
    | false =>
      rw [List.takeWhile_cons, if_neg (by simp [hp])] at h
      simp at h

/-- A header on which `HEADER_PATTERN` matches is not whitespace-only, for
every word class that matches no whitespace character. -/
theorem parse_some_not_blankW {w : Char → Bool}
    (hw : ∀ c, w c = true → isPySpace c = false) {header : List Char}
    {m : HeaderMatch} (hp : parseHeaderW w header = some m) :
    isBlank header = false := by
  cases hfx : FIXUP_KEY.isPrefixOf header with
  | true =>
    obtain ⟨t, ht⟩ := List.isPrefixOf_iff_prefix.mp hfx
    subst ht
    simp [isBlank, FIXUP_KEY, show isPySpace 'f' = false from by decide]
  | false =>
    cases hsq : SQUASH_KEY.isPrefixOf header with
    | true =>
      obtain ⟨t, ht⟩ := List.isPrefixOf_iff_prefix.mp hsq
      subst ht
      simp [isBlank, SQUASH_KEY, show isPySpace 's' = false from by decide]
    | false =>
      cases hte : (header.takeWhile w).isEmpty with
      | true => simp [parseHeaderW, hfx, hsq, hte] at hp
      | false =>
        obtain ⟨c, t, rfl, hwc⟩ := takeWhile_isEmpty_false hte
        simp [isBlank, hw c hwc]

/-- `takeWhile` walks through a block of characters that all satisfy the
predicate. -/
theorem takeWhile_append_all (p : Char → Bool) (l1 l2 : List Char)
    (h : ∀ c ∈ l1, p c = true) :
    (l1 ++ l2).takeWhile p = l1 ++ l2.takeWhile p := by
  induction l1 with
  | nil => simp
  | cons c cs ih =>
    rw [List.cons_append, List.takeWhile_cons,
      if_pos (h c (List.mem_cons_self c cs)),
      ih (fun x hx => h x (List.mem_cons_of_mem c hx)), List.cons_append]

/-- `dropWhile` walks through a block of characters that all satisfy the
predicate. -/
theorem dropWhile_append_all (p : Char → Bool) (l1 l2 : List Char)
    (h : ∀ c ∈ l1, p c = true) :
    (l1 ++ l2).dropWhile p = l2.dropWhile p := by
  induction l1 with
  | nil => simp
  | cons c cs ih =>
    rw [List.cons_append, List.dropWhile_cons,
      if_pos (h c (List.mem_cons_self c cs)),
      ih (fun x hx => h x (List.mem_cons_of_mem c hx))]

/-- Splitting a message built as header, newline, body recovers the two
parts, provided the header holds no newline. -/
theorem splitOnce_append (header body : List Char) (hn : '\n' ∉ header) :
    splitOnce (header ++ '\n' :: body) = some (header, body) := by
  have hmem : '\n' ∈ header ++ '\n' :: body :=
    List.mem_append_right _ (List.mem_cons_self _ _)
  have hall : ∀ c ∈ header, (!(c == '\n')) = true := by
    intro c hc
    have : c ≠ '\n' := fun e => hn (e ▸ hc)
    simp [this]
  unfold splitOnce
  rw [if_pos hmem, takeWhile_append_all _ _ _ hall,
    dropWhile_append_all _ _ _ hall, List.takeWhile_cons, List.dropWhile_cons]
  simp

/-- Unfolding step of `List.isPrefixOf` on two nonempty lists. -/
theorem isPrefixOf_cons_cons (a b : Char) (as bs : List Char) :
    (a :: as).isPrefixOf (b :: bs) = (a == b && as.isPrefixOf bs) := rfl

/-- A message assembled from a header on which `HEADER_PATTERN` matches
never starts with the literal of `MERGE_PATTERN`: a short header is covered
by the newline at the junction, and a header starting with the word `Merge`
followed by a space cannot match the grammar, for any word class that
matches no whitespace character (wherever the type token stops inside
`Merge `, the next character is one of `e`, `r`, `g`, the space — never a
parenthesis or a colon). -/
theorem merge_not_prefixW {w : Char → Bool}
    (hw : ∀ c, w c = true → isPySpace c = false)
    (header body : List Char) (m : HeaderMatch)
    (hp : parseHeaderW w header = some m) :
    MERGE_KEY.isPrefixOf (header ++ '\n' :: body) = false := by
  rcases header with _ | ⟨c1, _ | ⟨c2, _ | ⟨c3, _ | ⟨c4, _ | ⟨c5, _ | ⟨c6, t⟩⟩⟩⟩⟩⟩
  case nil =>
    simp [MERGE_KEY, isPrefixOf_cons_cons,
      show (('M' : Char) == '\n') = false from by decide]
  case cons.nil =>
    simp [MERGE_KEY, isPrefixOf_cons_cons,
      show (('e' : Char) == '\n') = false from by decide]
  case cons.cons.nil =>
    simp [MERGE_KEY, isPrefixOf_cons_cons,
      show (('r' : Char) == '\n') = false from by decide]
  case cons.cons.cons.nil =>
    simp [MERGE_KEY, isPrefixOf_cons_cons,
      show (('g' : Char) == '\n') = false from by decide]
  case cons.cons.cons.cons.nil =>
    simp [MERGE_KEY, isPrefixOf_cons_cons,
      show (('e' : Char) == '\n') = false from by decide]
  case cons.cons.cons.cons.cons.nil =>
    simp [MERGE_KEY, isPrefixOf_cons_cons,
      show ((' ' : Char) == '\n') = false from by decide]
  case cons.cons.cons.cons.cons.cons =>
    simp only [List.cons_append]
    cases hpre : MERGE_KEY.isPrefixOf
        (c1 :: c2 :: c3 :: c4 :: c5 :: c6 :: (t ++ '\n' :: body)) with
    | false => rfl
    | true =>
      exfalso
      simp only [MERGE_KEY, isPrefixOf_cons_cons, Bool.and_eq_true,
        beq_iff_eq] at hpre
      obtain ⟨e1, e2, e3, e4, e5, e6, -⟩ := hpre
      subst e1; subst e2; subst e3; subst e4; subst e5; subst e6
      have hsp : w ' ' = false := by
        cases hws : w ' ' with
        | false => rfl
        | true =>
          have h2 := hw ' ' hws
          rw [show isPySpace ' ' = true from by decide] at h2
          exact Bool.noConfusion h2
      cases hM : w 'M' with
      | false =>
        simp [parseHeaderW, FIXUP_KEY, SQUASH_KEY, isPrefixOf_cons_cons,
          List.takeWhile_cons, hM,
          show (('f' : Char) == 'M') = false from by decide,
          show (('s' : Char) == 'M') = false from by decide] at hp
      | true =>
        cases hE : w 'e' with
        | false =>
          simp [parseHeaderW, parseScope, FIXUP_KEY, SQUASH_KEY,
            isPrefixOf_cons_cons, List.takeWhile_cons, List.dropWhile_cons,
            hM, hE,
            show (('f' : Char) == 'M') = false from by decide,
            show (('s' : Char) == 'M') = false from by decide,
            show ¬ (('e' : Char) = '(') from by decide,
            show ¬ (('e' : Char) = ':') from by decide] at hp
        | true =>
          cases hR : w 'r' with
          | false =>
            simp [parseHeaderW, parseScope, FIXUP_KEY, SQUASH_KEY,
              isPrefixOf_cons_cons, List.takeWhile_cons, List.dropWhile_cons,
              hM, hE, hR,
              show (('f' : Char) == 'M') = false from by decide,
              show (('s' : Char) == 'M') = false from by decide,
              show ¬ (('r' : Char) = '(') from by decide,
              show ¬ (('r' : Char) = ':') from by decide] at hp
          | true =>
            cases hG : w 'g' with
            | false =>
              simp [parseHeaderW, parseScope, FIXUP_KEY, SQUASH_KEY,
                isPrefixOf_cons_cons, List.takeWhile_cons,
                List.dropWhile_cons, hM, hE, hR, hG,
                show (('f' : Char) == 'M') = false from by decide,
                show (('s' : Char) == 'M') = false from by decide,
                show ¬ (('g' : Char) = '(') from by decide,
                show ¬ (('g' : Char) = ':') from by decide] at hp
            | true =>
              cases t with
              | nil =>
                simp [parseHeaderW, parseScope, FIXUP_KEY, SQUASH_KEY,
                  isPrefixOf_cons_cons, List.takeWhile_cons,
                  List.dropWhile_cons, hM, hE, hR, hG, hsp,
                  show (('f' : Char) == 'M') = false from by decide,
                  show (('s' : Char) == 'M') = false from by decide,
                  show ¬ ((' ' : Char) = '(') from by decide] at hp
              | cons d t2 =>
                simp [parseHeaderW, parseScope, FIXUP_KEY, SQUASH_KEY,
                  isPrefixOf_cons_cons, List.takeWhile_cons,
                  List.dropWhile_cons, hM, hE, hR, hG, hsp,
                  show (('f' : Char) == 'M') = false from by decide,
                  show (('s' : Char) == 'M') = false from by decide,
                  show ¬ ((' ' : Char) = '(') from by decide,
                  show ¬ ((' ' : Char) = ':') from by decide] at hp

/-- Reduction of `check_headerW` once the grammar match is known. -/
theorem check_header_parseW {w : Char → Bool}
    (hw : ∀ c, w c = true → isPySpace c = false) {header : List Char}
    {m : HeaderMatch} (hp : parseHeaderW w header = some m) :
    check_headerW w header =
      if header.length > LINE_LIMIT ∧
          ¬ (m.fixupOrSquash = true ∨ m.type_ = "revert".toList ∨
             m.type_ = "Revert".toList) then
        ((if m.type_ ∈ TYPE_LIST then [] else [Diag.WRONG_TYPE m.type_]) ++
          [Diag.LINE_OVERLONG header.length header], false)
      else
        ((if m.type_ ∈ TYPE_LIST then [] else [Diag.WRONG_TYPE m.type_]),
          true) := by
  unfold check_headerW
  rw [parse_some_not_blankW hw hp, hp]
  simp

/-- Reduction of `validate_commit_messageW` on a message assembled from a
grammar-matching header, a newline and a body. -/
theorem validate_appendW {w : Char → Bool}
    (hw : ∀ c, w c = true → isPySpace c = false)
    (header body : List Char) (m : HeaderMatch)
    (hp : parseHeaderW w header = some m) (hn : '\n' ∉ header) :
    validate_commit_messageW w (header ++ '\n' :: body) =
      if (check_headerW w header).2 = false then
        Except.ok ((check_headerW w header).1, false)
      else if (check_body body).2 = false then
        Except.ok ((check_headerW w header).1 ++ (check_body body).1, false)
      else
        Except.ok ((check_headerW w header).1 ++ (check_body body).1 ++
          [Diag.VALIDATED], true) := by
  have hb : isBlank (header ++ '\n' :: body) = false := by
    have h1 := parse_some_not_blankW hw hp
    simp only [isBlank, List.all_append] at h1 ⊢
    simp [h1]
  have hm := merge_not_prefixW hw header body m hp
  unfold validate_commit_messageW
  rw [hb, hm, splitOnce_append header body hn]
  simp

/-- The loop of `check_body` stops at the first overlong line. -/
theorem check_lines_first (pre : List (List Char)) (l : List Char)
    (post : List (List Char)) (hpre : ∀ x ∈ pre, ¬ x.length > LINE_LIMIT)
    (hl : l.length > LINE_LIMIT) :
    check_lines (pre ++ l :: post) =
      ([Diag.LINE_OVERLONG l.length l], false) := by
  induction pre with
  | nil =>
    rw [List.nil_append]
    unfold check_lines
    rw [if_pos hl]
  | cons x xs ih =>
    rw [List.cons_append]
    unfold check_lines
    rw [if_neg (hpre x (List.mem_cons_self x xs))]
    exact ih (fun y hy => hpre y (List.mem_cons_of_mem x hy))

/-- Claim C1.  The claim says that on a message that is not
whitespace-only, does not start with the merge literal and holds no
newline, `validate_commit_message` defaults the body to the empty string,
raises nothing, and fails with the bad-header-format diagnostic.  The code
instead lets the `ValueError` of the two-name unpacking escape, because the
split of a newline-free string has a single element: evaluating the
embedding at the failing input `update stuff` yields the exception. -/
theorem claim_C1_single_line_raises :
    validate_commit_message ("update stuff".toList) =
      Except.error PyExc.valueError := rfl

/-- Claim C2: a header matching the grammar whose type token is outside
`TYPE_LIST` and whose length is within the limit makes `check_header` emit
the wrong-type diagnostic yet return success, and a whole message built
from it and a conforming body validates successfully.  Proved for every
word class `w` that matches no whitespace character, so instantiating `w`
at the Unicode class of the Python `\w` covers the program including
Unicode-typed headers. -/
theorem claim_C2_wrong_type_still_passes (w : Char → Bool)
    (hw : ∀ c, w c = true → isPySpace c = false)
    (header body : List Char) (m : HeaderMatch)
    (hp : parseHeaderW w header = some m)
    (ht : m.type_ ∉ TYPE_LIST) (hlen : header.length ≤ LINE_LIMIT)
    (hn : '\n' ∉ header) (hbody : (check_body body).2 = true) :
    check_headerW w header = ([Diag.WRONG_TYPE m.type_], true) ∧
    validate_commit_messageW w (header ++ '\n' :: body) =
      Except.ok ([Diag.WRONG_TYPE m.type_] ++ (check_body body).1 ++
        [Diag.VALIDATED], true) := by
  have hch : check_headerW w header = ([Diag.WRONG_TYPE m.type_], true) := by
    rw [check_header_parseW hw hp, if_neg (fun h => absurd h.1 (by omega)),
      if_neg ht]
  refine ⟨hch, ?_⟩
  rw [validate_appendW hw header body m hp hn, hch]
  simp [hbody]

theorem claim_C2_witness :
    check_header ("foo: does something".toList) =
      ([Diag.WRONG_TYPE "foo".toList], true) ∧
    validate_commit_message ("foo: does something".toList ++ '\n' :: []) =
      Except.ok ([Diag.WRONG_TYPE "foo".toList] ++ [] ++
        [Diag.VALIDATED], true) := by
  have h := claim_C2_wrong_type_still_passes isWordChar word_not_space
    ("foo: does something".toList)
    [] ⟨false, "foo".toList, none, "does something".toList⟩ (by decide)
    (by decide) (by decide) (by decide) (by decide)
  simpa [check_header, validate_commit_message,
    show check_body ([] : List Char) = ([], true) from rfl] using h

/-- Claim C3: a message made of whitespace only (the empty message
included) fails with the empty-message diagnostic. -/
theorem claim_C3_blank_message_fails (message : List Char)
    (h : message.all isPySpace = true) :
    validate_commit_message message =
      Except.ok ([Diag.EMPTY_MESSAGE], false) := by
  simp [validate_commit_message, validate_commit_messageW, isBlank, h]

theorem claim_C3_witness :
    validate_commit_message [] = Except.ok ([Diag.EMPTY_MESSAGE], false) :=
  claim_C3_blank_message_fails [] (by decide)

/-- Claim C4: a message starting with the merge literal succeeds with only
the merge diagnostic, whatever follows; no further check runs. -/
theorem claim_C4_merge_short_circuit (message : List Char)
    (h : MERGE_KEY.isPrefixOf message = true) :
    validate_commit_message message = Except.ok ([Diag.MERGE], true) := by
  obtain ⟨t, ht⟩ := List.isPrefixOf_iff_prefix.mp h
  subst ht
  have hb : isBlank (MERGE_KEY ++ t) = false := by
    simp [isBlank, MERGE_KEY, show isPySpace 'M' = false from by decide]
  simp [validate_commit_message, validate_commit_messageW, hb, h]

theorem claim_C4_witness :
    validate_commit_message ("Merge branch main into feature/x".toList) =
      Except.ok ([Diag.MERGE], true) :=
  claim_C4_merge_short_circuit _ (by decide)

/-- Claim C5: on a grammar-matching overlong header whose match has the
fixup/squash marker, or whose type is exactly `revert` or exactly `Revert`,
`check_header` passes and takes no overlong branch: its result is the
wrong-type warning list alone paired with success.  Proved for every word
class `w` that matches no whitespace character, so instantiating `w` at the
Unicode class of the Python `\w` covers the program including
Unicode-typed fixup/squash headers. -/
theorem claim_C5_overlong_exemptions (w : Char → Bool)
    (hw : ∀ c, w c = true → isPySpace c = false)
    (header : List Char) (m : HeaderMatch)
    (hp : parseHeaderW w header = some m)
    (hex : m.fixupOrSquash = true ∨ m.type_ = "revert".toList ∨
      m.type_ = "Revert".toList)
    (hlen : header.length > LINE_LIMIT) :
    check_headerW w header =
      ((if m.type_ ∈ TYPE_LIST then [] else [Diag.WRONG_TYPE m.type_]),
        true) := by
  rw [check_header_parseW hw hp, if_neg (fun h => h.2 hex)]

theorem claim_C5_witness :
    check_header ("revert: ".toList ++ List.replicate 100 'x') =
      ([], true) := by
  have h := claim_C5_overlong_exemptions isWordChar word_not_space
    ("revert: ".toList ++ List.replicate 100 'x')
    ⟨false, "revert".toList, none, List.replicate 100 'x'⟩ (by decide)
    (Or.inr (Or.inl rfl)) (by decide)
  rw [if_pos (show ("revert".toList : List Char) ∈ TYPE_LIST from
    by decide)] at h
  exact h

/-- Claim C6: a grammar-matching overlong header with no exemption fails
with the overlong diagnostic carrying the exact character count of the
header.  Proved for every word class `w` that matches no whitespace
character, so instantiating `w` at the Unicode class of the Python `\w`
covers the program including Unicode-typed headers. -/
theorem claim_C6_overlong_fails (w : Char → Bool)
    (hw : ∀ c, w c = true → isPySpace c = false)
    (header : List Char) (m : HeaderMatch)
    (hp : parseHeaderW w header = some m) (hfs : m.fixupOrSquash = false)
    (hr1 : m.type_ ≠ "revert".toList) (hr2 : m.type_ ≠ "Revert".toList)
    (hlen : header.length > LINE_LIMIT) :
    check_headerW w header =
      ((if m.type_ ∈ TYPE_LIST then [] else [Diag.WRONG_TYPE m.type_]) ++
        [Diag.LINE_OVERLONG header.length header], false) := by
  rw [check_header_parseW hw hp, if_pos]
  refine ⟨hlen, ?_⟩
  rintro (h | h | h)
  · rw [hfs] at h; simp at h
  · exact hr1 h
  · exact hr2 h

theorem claim_C6_witness :
    check_header ("feat: ".toList ++ List.replicate 114 'x') =
      ([Diag.LINE_OVERLONG 120 ("feat: ".toList ++ List.replicate 114 'x')],
        false) := by
  have h := claim_C6_overlong_fails isWordChar word_not_space
    ("feat: ".toList ++ List.replicate 114 'x')
    ⟨false, "feat".toList, none, List.replicate 114 'x'⟩ (by decide) rfl
    (by decide) (by decide) (by decide)
  rw [if_pos (show ("feat".toList : List Char) ∈ TYPE_LIST from by decide),
    show ("feat: ".toList ++ List.replicate 114 'x').length = 120 from
      by decide] at h
  simpa [check_header] using h

/-- Claim C7: a body that is not whitespace-only and whose first line is
nonempty fails with the missing-blank-line diagnostic. -/
theorem claim_C7_no_blank_line (body : List Char)
    (h1 : isBlank body = false) (h2 : firstLine body ≠ []) :
    check_body body = ([Diag.NO_BLANK_LINE_BEFORE_BODY], false) := by
  simp [check_body, h1, h2]

theorem claim_C7_witness :
    check_body ("x".toList) = ([Diag.NO_BLANK_LINE_BEFORE_BODY], false) :=
  claim_C7_no_blank_line _ (by decide) (by decide)

/-- Claim C8: a body that passes the blank-line check and holds an overlong
line fails with the overlong diagnostic of the first such line, carrying
its exact character count and text, and no later line is looked at. -/
theorem claim_C8_first_overlong_line (body : List Char)
    (pre : List (List Char)) (l : List Char) (post : List (List Char))
    (h1 : isBlank body = false) (h2 : firstLine body = [])
    (h3 : splitlines body = pre ++ l :: post)
    (h4 : ∀ x ∈ pre, ¬ x.length > LINE_LIMIT)
    (h5 : l.length > LINE_LIMIT) :
    check_body body = ([Diag.LINE_OVERLONG l.length l], false) := by
  have hc := check_lines_first pre l post h4 h5
  simp [check_body, h1, h2, h3, hc]

theorem claim_C8_witness :
    check_body ('\n' :: (List.replicate 101 'a' ++ '\n' ::
        List.replicate 102 'b')) =
      ([Diag.LINE_OVERLONG 101 (List.replicate 101 'a')], false) := by
  have h := claim_C8_first_overlong_line
    ('\n' :: (List.replicate 101 'a' ++ '\n' :: List.replicate 102 'b'))
    [[]] (List.replicate 101 'a') [List.replicate 102 'b'] (by decide)
    (by decide) (by decide) (by decide) (by decide)
  rw [show (List.replicate 101 'a').length = 101 from by decide] at h
  exact h

/-- Claim C9: `validate_commit_message` is deterministic; its outcome and
diagnostics depend only on the input text, which the pure embedding makes
definitional. -/
theorem claim_C9_deterministic (m1 m2 : List Char) (h : m1 = m2) :
    validate_commit_message m1 = validate_commit_message m2 := by rw [h]

theorem claim_C9_witness :
    validate_commit_message ("feat: x\n".toList) =
      validate_commit_message ("feat: x\n".toList) :=
  claim_C9_deterministic _ _ rfl

/-- Claim C10: under the default policy a whitespace-only body passes
immediately, with no diagnostic at all, so an overlong whitespace-only body
line never produces the overlong diagnostic. -/
theorem claim_C10_blank_body_skips_checks (body : List Char)
    (h : body.all isPySpace = true) : check_body body = ([], true) := by
  simp [check_body, isBlank, h, BODY_REQUIRED]

theorem claim_C10_witness :
    check_body (List.replicate 150 ' ') = ([], true) :=
  claim_C10_blank_body_skips_checks _ (by decide)

end CommitMsg
